import Mathlib

set_option autoImplicit false

/-!
Verification of the speedbump orchestration layer (`lib/speedbump.go`).

The file embeds the orchestration code shallowly:
* `NewSpeedbump` and `Start` become pure Lean functions, with the network
  environment (address resolution, listening) passed in as oracles;
* the runtime behaviour of the accept loop, `Stop`, `Enable` and `Disable`
  becomes a labelled transition system `step` on an explicit state `SBState`,
  with `run` folding a list of labels (one interleaved schedule) over a state.

Definitions come first, then the theorems about them.
-/

/-- Result of `net.ResolveTCPAddr`: a resolved TCP address. -/
structure TCPAddr where
  ip : String
  port : Nat
deriving DecidableEq

/-- Modelled from the spec: the latency configuration record (its Go source is
not among the given files). The spec describes a base delay, jitter bounds and
an optional time-varying term. The orchestration layer never inspects it, it
only passes it through to the latency generator. -/
structure LatencyCfg where
  base : Nat
  jitter : Nat
  timeVarying : Option Nat
deriving DecidableEq

/-- Modelled from the spec: `newSimpleLatencyGenerator` captures a fixed
reference start time and the latency configuration (the generator's Go source
is not among the given files; the orchestration layer only constructs and
stores it). -/
structure simpleLatencyGenerator where
  start : Nat
  cfg : Option LatencyCfg
deriving DecidableEq

def newSimpleLatencyGenerator (now : Nat) (cfg : Option LatencyCfg) :
    simpleLatencyGenerator :=
  { start := now, cfg := cfg }

/-- Configuration record `SpeedbumpCfg` (speedbump.go lines 35-52). -/
structure SpeedbumpCfg where
  Host : String
  Port : Int
  DestAddr : String
  BufferSize : Int
  QueueSize : Int
  Latency : Option LatencyCfg
  LogLevel : String
  Disabled : Bool
deriving DecidableEq

/-- Construction-time fields of the `Speedbump` struct (speedbump.go lines
16-32) as filled in by `NewSpeedbump` (lines 73-81). The remaining fields
(listener, nextConnId, the wait group, ctx, activeConnections) are runtime
state, zero-valued at construction; they are modelled by `SBState` below. -/
structure Speedbump where
  bufferSize : Int
  queueSize : Int
  srcAddr : TCPAddr
  destAddr : TCPAddr
  latencyGen : simpleLatencyGenerator
  disabled : Bool
deriving DecidableEq

/-- String handed to `net.ResolveTCPAddr` for the local address
(speedbump.go line 56): `fmt.Sprintf` of host, a colon, and the port. -/
def localAddrString (cfg : SpeedbumpCfg) : String :=
  cfg.Host ++ ":" ++ toString cfg.Port

/-- Embedding of `NewSpeedbump` (speedbump.go lines 55-83). The resolver is
the environment's `net.ResolveTCPAddr` and `now` is `time.Now()`. The function
resolves the local address, then the destination address, applies the
queue-size default, and builds the instance; note that it performs no
validation of `BufferSize` or `QueueSize` beyond the zero default. -/
def NewSpeedbump (resolveTCPAddr : String → Option TCPAddr) (now : Nat)
    (cfg : SpeedbumpCfg) : Except String Speedbump :=
  match resolveTCPAddr (localAddrString cfg) with
  | none => Except.error "Error resolving local address"
  | some localTCPAddr =>
    match resolveTCPAddr cfg.DestAddr with
    | none => Except.error "Error resolving destination address"
    | some destTCPAddr =>
      let queueSize := if cfg.QueueSize = 0 then 1024 else cfg.QueueSize
      Except.ok
        { bufferSize := cfg.BufferSize
        , queueSize := queueSize
        , srcAddr := localTCPAddr
        , destAddr := destTCPAddr
        , latencyGen := newSimpleLatencyGenerator now cfg.Latency
        , disabled := cfg.Disabled }

/-- Unused constant from speedbump.go line 160; no function of the source
refers to it (just as the one-time guard `startOnce` of line 162 has no
caller). -/
def _maxAttempts : Nat := 10

/-- Resolver environment that resolves every address (as the real resolver
does for well-formed numeric addresses such as 127.0.0.1:80). -/
def resolveLoopback : String → Option TCPAddr :=
  fun _ => some { ip := "127.0.0.1", port := 80 }

/-- Resolver environment that resolves nothing. -/
def resolveNothing : String → Option TCPAddr := fun _ => none

/-- Configuration with a resolvable address pair but non-positive sizing
parameters. -/
def cfgNoValidation : SpeedbumpCfg :=
  { Host := "127.0.0.1"
  , Port := 8000
  , DestAddr := "127.0.0.1:80"
  , BufferSize := -1
  , QueueSize := -4
  , Latency := none
  , LogLevel := "INFO"
  , Disabled := false }

/-- Configuration that leaves `QueueSize` unspecified (zero). -/
def cfgDefaultQueue : SpeedbumpCfg :=
  { Host := "127.0.0.1"
  , Port := 8000
  , DestAddr := "127.0.0.1:80"
  , BufferSize := 64
  , QueueSize := 0
  , Latency := none
  , LogLevel := "INFO"
  , Disabled := false }

/-- Instance built by `NewSpeedbump` from `cfgDefaultQueue` under
`resolveLoopback`. -/
def sbDefaultQueue : Speedbump :=
  { bufferSize := 64
  , queueSize := 1024
  , srcAddr := { ip := "127.0.0.1", port := 80 }
  , destAddr := { ip := "127.0.0.1", port := 80 }
  , latencyGen := { start := 0, cfg := none }
  , disabled := false }

/-- Runtime view of one proxy connection as the orchestration layer sees it:
its id (speedbump.go line 97 and 114), the initial enabled flag it was
constructed with (line 107 passes the negation of the disabled field), and its
current gate state, toggled by `connection.Enable` / `connection.Disable`,
which are modelled from the spec (the connection's Go source is not among the
given files; per the spec the gate is a per-connection boolean set by the
toggles). -/
structure Conn where
  id : Nat
  initialEnabled : Bool
  enabled : Bool
deriving DecidableEq

/-- Runtime state of one started Speedbump instance: the mutable fields of the
`Speedbump` struct together with the bookkeeping of the environment that the
claims talk about (which starts have returned, how many dials were attempted,
how many client sockets were closed after a failed dial). -/
structure SBState where
  disabled : Bool
  nextConnId : Nat
  listenerOpen : Bool
  loopRunning : Bool
  ctxCancelled : Bool
  activeCount : Nat
  activeConnections : List Conn
  returned : List Nat
  doneIds : List Nat
  dialAttempts : Nat
  closedClientSockets : Nat
  stopReturned : Bool
deriving DecidableEq

/-- Atomic events of the interleaved execution of a started instance:
the accept loop's iterations, a proxy connection's `start()` returning, the
deferred `active.Done()`, the three statements of `Stop`, and the toggles. -/
inductive Label where
  | acceptDial (dialOk : Bool)
  | acceptErrOther
  | acceptErrClosed
  | connReturn (id : Nat)
  | connDone (id : Nat)
  | stopClose
  | stopCancel
  | stopWait
  | enable
  | disable
deriving DecidableEq

/-- One atomic event of the transition system, traced from speedbump.go.
`acceptDial ok`: one iteration of `startAcceptLoop` (lines 86-118) in which
`AcceptTCP` delivers a client; `newProxyConnection` dials the destination with
outcome `ok`. On success the id counter is bumped, the wait group incremented
and the connection appended (lines 114-117); on failure the client socket is
closed and the loop continues (lines 110-112), touching nothing else.
`acceptErrOther`: `AcceptTCP` fails with an error other than a closed
listener; the loop logs and continues (lines 93-94). `acceptErrClosed`:
`AcceptTCP` fails because the listener was closed; the loop returns (lines
89-91). `connReturn id`: connection `id`'s `start()` returns (line 124);
`connDone id`: its deferred `active.Done()` runs (line 122). `stopClose`,
`stopCancel`, `stopWait`: the three statements of `Stop` in program order
(lines 152-156) — `stopCancel` requires the listener already closed and
`stopWait` requires the context cancelled because `Stop` is straight-line
code, and `stopWait` requires a zero wait-group counter, which is
`sync.WaitGroup.Wait` semantics. `enable` / `disable`: `Enable` / `Disable`
(lines 164-176) write the disabled flag and toggle the gate of every
connection in the registry.

Each label summarizes one whole loop iteration (or one statement) as a single
atomic event; this net-effect view backs the claims about what an iteration
does. It is a coarsening: the real successful iteration suspends between the
dial and the registration, and `Stop` may run in that window — that finer
interleaving is modelled by `stepFine` below and matters for the shutdown
claim. -/
def step (s : SBState) : Label → Option SBState
  | Label.acceptDial true =>
    if s.listenerOpen = true ∧ s.loopRunning = true then
      some { s with
        dialAttempts := s.dialAttempts + 1
        nextConnId := s.nextConnId + 1
        activeCount := s.activeCount + 1
        activeConnections := s.activeConnections ++
          [{ id := s.nextConnId, initialEnabled := !s.disabled,
             enabled := !s.disabled }] }
    else none
  | Label.acceptDial false =>
    if s.listenerOpen = true ∧ s.loopRunning = true then
      some { s with
        dialAttempts := s.dialAttempts + 1
        closedClientSockets := s.closedClientSockets + 1 }
    else none
  | Label.acceptErrOther =>
    if s.listenerOpen = true ∧ s.loopRunning = true then some s else none
  | Label.acceptErrClosed =>
    if s.listenerOpen = false ∧ s.loopRunning = true then
      some { s with loopRunning := false }
    else none
  | Label.connReturn id =>
    if (∃ c ∈ s.activeConnections, c.id = id) ∧ id ∉ s.returned then
      some { s with returned := id :: s.returned }
    else none
  | Label.connDone id =>
    if id ∈ s.returned ∧ id ∉ s.doneIds then
      some { s with doneIds := id :: s.doneIds, activeCount := s.activeCount - 1 }
    else none
  | Label.stopClose =>
    if s.listenerOpen = true then some { s with listenerOpen := false } else none
  | Label.stopCancel =>
    if s.listenerOpen = false ∧ s.ctxCancelled = false then
      some { s with ctxCancelled := true }
    else none
  | Label.stopWait =>
    if s.ctxCancelled = true ∧ s.activeCount = 0 ∧ s.stopReturned = false then
      some { s with stopReturned := true }
    else none
  | Label.enable =>
    some { s with
      disabled := false
      activeConnections := s.activeConnections.map fun c => { c with enabled := true } }
  | Label.disable =>
    some { s with
      disabled := true
      activeConnections := s.activeConnections.map fun c => { c with enabled := false } }

/-- Folding one interleaved schedule of events over a state. -/
def run (s : SBState) : List Label → Option SBState
  | [] => some s
  | l :: tr =>
    match step s l with
    | none => none
    | some s' => run s' tr

/-- State right after `Start` succeeds (speedbump.go lines 129-144): listener
up, fresh un-cancelled context, accept loop spawned, and the zero-valued
runtime fields of the freshly constructed struct. -/
def startedState (disabled : Bool) : SBState :=
  { disabled := disabled
  , nextConnId := 0
  , listenerOpen := true
  , loopRunning := true
  , ctxCancelled := false
  , activeCount := 0
  , activeConnections := []
  , returned := []
  , doneIds := []
  , dialAttempts := 0
  , closedClientSockets := 0
  , stopReturned := false }

/-- Embedding of `Start` (speedbump.go lines 129-144): `listenOk` is the
outcome of `net.ListenTCP` on the source address. On failure the error is
returned; on success the listener is stored, a cancellable context created,
the accept loop spawned, and `nil` returned at once. -/
def Speedbump.Start (s : Speedbump) (listenOk : Bool) : Except String SBState :=
  if listenOk then Except.ok (startedState s.disabled)
  else Except.error "starting TCP listener"

/-- Ids currently in the connection registry. -/
def idsOf (s : SBState) : List Nat := s.activeConnections.map Conn.id

/-- Fields of the `Speedbump` struct shared between the accept loop and the
toggle methods. -/
inductive SpeedbumpField where
  | activeConnectionsField
  | disabledField
  | nextConnIdField
deriving DecidableEq, BEq

/-- One access to a shared field, read or write. -/
structure FieldAccess where
  field : SpeedbumpField
  isWrite : Bool
deriving DecidableEq

/-- Shared-field accesses of one successful iteration of `startAcceptLoop`,
traced from the source: it reads `disabled` (speedbump.go line 107),
increments `nextConnId` (line 114) and appends to `activeConnections`
(line 116). -/
def startAcceptLoopAccesses : List FieldAccess :=
  [ { field := SpeedbumpField.disabledField, isWrite := false }
  , { field := SpeedbumpField.nextConnIdField, isWrite := true }
  , { field := SpeedbumpField.activeConnectionsField, isWrite := true } ]

/-- Shared-field accesses of `Enable` (speedbump.go lines 164-169): it writes
`disabled` and reads `activeConnections` to iterate over it (`Disable`, lines
171-176, has the same footprint). -/
def enableAccesses : List FieldAccess :=
  [ { field := SpeedbumpField.disabledField, isWrite := true }
  , { field := SpeedbumpField.activeConnectionsField, isWrite := false } ]

/-- Locks held around the accept loop's registry accesses, traced from the
source: the `Speedbump` struct declares no mutex and `startAcceptLoop`
performs no lock operation (the only `sync` values are the `active` wait
group, used for Add/Done/Wait counting, and the never-referenced
`startOnce`). -/
def startAcceptLoopLocks : List String := []

/-- Locks held around `Enable` / `Disable`'s registry accesses: none, for the
same reason. -/
def enableLocks : List String := []

/-- Two accesses conflict when they touch the same field and at least one
writes. -/
def conflicting (a b : FieldAccess) : Bool :=
  a.field == b.field && (a.isWrite || b.isWrite)

/-- Two concurrently executing code sections race when they make conflicting
accesses to some shared field while holding no lock in common. -/
def hasDataRace (as bs : List FieldAccess) (la lb : List String) : Bool :=
  (as.any fun a => bs.any fun b => conflicting a b) &&
    !(la.any fun l => lb.contains l)

/-- Runtime state for the fine-grained transition system: the fields of
`SBState` plus `pending`, the accept loop's local variable `p` — a proxy
connection that `newProxyConnection` has already returned (speedbump.go line
98) but that lines 114-117 have not yet registered. It records the initial
enabled flag the connection was constructed with (line 107); there is at most
one such connection because the accept loop is a single goroutine. -/
structure FState where
  disabled : Bool
  nextConnId : Nat
  listenerOpen : Bool
  loopRunning : Bool
  ctxCancelled : Bool
  activeCount : Nat
  activeConnections : List Conn
  returned : List Nat
  doneIds : List Nat
  dialAttempts : Nat
  closedClientSockets : Nat
  stopReturned : Bool
  pending : Option Bool
deriving DecidableEq

/-- Events of the fine-grained system. Unlike `Label`, a successful accept
iteration is split at its suspension point: `acceptOkPending` covers
`AcceptTCP` returning a client and `newProxyConnection` dialling successfully
(speedbump.go lines 87, 98-108), and `registerConn` covers the subsequent
`nextConnId++`, `active.Add(1)`, registry append and `go startProxyConnection`
(lines 114-117). Nothing synchronizes `Stop` against the window between the
two, so `Stop` may run to completion in between. -/
inductive FLabel where
  | acceptOkPending
  | registerConn
  | acceptDialFail
  | acceptErrOther
  | acceptErrClosed
  | connReturn (id : Nat)
  | connDone (id : Nat)
  | stopClose
  | stopCancel
  | stopWait
  | enable
  | disable
deriving DecidableEq

/-- One atomic event of the fine-grained system, traced from speedbump.go.
`acceptOkPending` requires the listener open (for `AcceptTCP` to deliver a
client) and no iteration already in progress; it records the dial attempt and
holds the constructed connection, with its initial enabled flag `!disabled`
read at line 107, in `pending`. `registerConn` requires a pending connection
and performs lines 114-117; it has no listener guard — the loop registers the
connection even if the listener was closed meanwhile. `acceptDialFail` is the
failure branch (lines 109-112), which touches no shared state beyond closing
the client socket, so it stays one event. The remaining events are exactly
those of `step`, with the same guards; `enable`/`disable` iterate only the
registry (lines 166, 173), so a pending connection is not touched. -/
def stepFine (s : FState) : FLabel → Option FState
  | FLabel.acceptOkPending =>
    if s.listenerOpen = true ∧ s.loopRunning = true ∧ s.pending = none then
      some { s with
        pending := some (!s.disabled)
        dialAttempts := s.dialAttempts + 1 }
    else none
  | FLabel.registerConn =>
    match s.pending with
    | some e =>
      some { s with
        pending := none
        nextConnId := s.nextConnId + 1
        activeCount := s.activeCount + 1
        activeConnections := s.activeConnections ++
          [{ id := s.nextConnId, initialEnabled := e, enabled := e }] }
    | none => none
  | FLabel.acceptDialFail =>
    if s.listenerOpen = true ∧ s.loopRunning = true ∧ s.pending = none then
      some { s with
        dialAttempts := s.dialAttempts + 1
        closedClientSockets := s.closedClientSockets + 1 }
    else none
  | FLabel.acceptErrOther =>
    if s.listenerOpen = true ∧ s.loopRunning = true ∧ s.pending = none then
      some s
    else none
  | FLabel.acceptErrClosed =>
    if s.listenerOpen = false ∧ s.loopRunning = true ∧ s.pending = none then
      some { s with loopRunning := false }
    else none
  | FLabel.connReturn id =>
    if (∃ c ∈ s.activeConnections, c.id = id) ∧ id ∉ s.returned then
      some { s with returned := id :: s.returned }
    else none
  | FLabel.connDone id =>
    if id ∈ s.returned ∧ id ∉ s.doneIds then
      some { s with doneIds := id :: s.doneIds, activeCount := s.activeCount - 1 }
    else none
  | FLabel.stopClose =>
    if s.listenerOpen = true then some { s with listenerOpen := false } else none
  | FLabel.stopCancel =>
    if s.listenerOpen = false ∧ s.ctxCancelled = false then
      some { s with ctxCancelled := true }
    else none
  | FLabel.stopWait =>
    if s.ctxCancelled = true ∧ s.activeCount = 0 ∧ s.stopReturned = false then
      some { s with stopReturned := true }
    else none
  | FLabel.enable =>
    some { s with
      disabled := false
      activeConnections := s.activeConnections.map fun c => { c with enabled := true } }
  | FLabel.disable =>
    some { s with
      disabled := true
      activeConnections := s.activeConnections.map fun c => { c with enabled := false } }

/-- Folding one interleaved schedule of fine-grained events over a state. -/
def runFine (s : FState) : List FLabel → Option FState
  | [] => some s
  | l :: tr =>
    match stepFine s l with
    | none => none
    | some s' => runFine s' tr

/-- Fine-grained state right after `Start` succeeds. -/
def startedStateF (disabled : Bool) : FState :=
  { disabled := disabled
  , nextConnId := 0
  , listenerOpen := true
  , loopRunning := true
  , ctxCancelled := false
  , activeCount := 0
  , activeConnections := []
  , returned := []
  , doneIds := []
  , dialAttempts := 0
  , closedClientSockets := 0
  , stopReturned := false
  , pending := none }

/-- Ids currently in the fine-grained connection registry. -/
def idsOfF (s : FState) : List Nat := s.activeConnections.map Conn.id

/-- Invariant of every reachable fine-grained state. It mirrors the registry
and wait-group bookkeeping, and the close-before-cancel order of `Stop`; note
it cannot contain "`Stop` returned implies a zero counter", because
`registerConn` may increment the counter after `Stop` returned — that is
exactly the schedule the fine-grained system exists to expose. -/
structure FInv (s : FState) : Prop where
  idsNodup : (idsOfF s).Nodup
  idsLt : ∀ c ∈ s.activeConnections, c.id < s.nextConnId
  retNodup : s.returned.Nodup
  doneNodup : s.doneIds.Nodup
  retSub : s.returned ⊆ idsOfF s
  doneSub : s.doneIds ⊆ s.returned
  countEq : s.activeCount + s.doneIds.length = s.activeConnections.length
  cancelClosed : s.ctxCancelled = true → s.listenerOpen = false

/-- Schedule in which `Stop` runs to completion between a successful dial and
the registration of the accepted connection. -/
def cexTrace : List FLabel :=
  [FLabel.acceptOkPending, FLabel.stopClose, FLabel.stopCancel,
   FLabel.stopWait, FLabel.registerConn]

/-- Final state of `cexTrace`: `Stop` has returned, yet connection 0 is
registered and its `start()` has not returned. -/
def cexFinal : FState :=
  { disabled := false
  , nextConnId := 1
  , listenerOpen := false
  , loopRunning := true
  , ctxCancelled := true
  , activeCount := 1
  , activeConnections := [{ id := 0, initialEnabled := true, enabled := true }]
  , returned := []
  , doneIds := []
  , dialAttempts := 1
  , closedClientSockets := 0
  , stopReturned := true
  , pending := none }

/-- Schedule registering one connection, letting it finish, then running
`Stop` up to (but not including) `active.Wait()`. -/
def regTrace : List FLabel :=
  [FLabel.acceptOkPending, FLabel.registerConn, FLabel.connReturn 0,
   FLabel.connDone 0, FLabel.stopClose, FLabel.stopCancel]

/-- State reached by `regTrace`, with `active.Wait()` about to return. -/
def regBeforeWait : FState :=
  { disabled := false
  , nextConnId := 1
  , listenerOpen := false
  , loopRunning := true
  , ctxCancelled := true
  , activeCount := 0
  , activeConnections := [{ id := 0, initialEnabled := true, enabled := true }]
  , returned := [0]
  , doneIds := [0]
  , dialAttempts := 1
  , closedClientSockets := 0
  , stopReturned := false
  , pending := none }

/-- State right after `active.Wait()` returns from `regBeforeWait`. -/
def regAfterWait : FState := { regBeforeWait with stopReturned := true }

/-- Concrete reachable runtime state with one registered connection that has
already returned and been waited for. -/
def demoFinal : SBState :=
  { disabled := false
  , nextConnId := 1
  , listenerOpen := false
  , loopRunning := true
  , ctxCancelled := true
  , activeCount := 0
  , activeConnections := [{ id := 0, initialEnabled := true, enabled := true }]
  , returned := [0]
  , doneIds := [0]
  , dialAttempts := 1
  , closedClientSockets := 0
  , stopReturned := true }

/-- State after one failed-dial accept iteration from a fresh start. -/
def dialFailDemo : SBState :=
  { startedState false with dialAttempts := 1, closedClientSockets := 1 }

/-- State after `Enable` on a fresh instance started disabled. -/
def enableDemo : SBState := { startedState true with disabled := false }

/-- State after `Disable` on a fresh instance started disabled. -/
def disableDemo : SBState := startedState true

/-- State after one accepted connection on a fresh instance started
disabled. -/
def acceptDemo : SBState :=
  { startedState true with
      dialAttempts := 1
      nextConnId := 1
      activeCount := 1
      activeConnections := [{ id := 0, initialEnabled := false, enabled := false }] }

/-- C2: whenever `NewSpeedbump` succeeds, the instance's `queueSize` is 1024
if the caller left `QueueSize` at zero and the caller-supplied value
otherwise (speedbump.go lines 67-72, 75). -/
theorem newSpeedbump_queueSize_default (resolveTCPAddr : String → Option TCPAddr)
    (now : Nat) (cfg : SpeedbumpCfg) (s : Speedbump)
    (h : NewSpeedbump resolveTCPAddr now cfg = Except.ok s) :
    s.queueSize = if cfg.QueueSize = 0 then 1024 else cfg.QueueSize := by
  unfold NewSpeedbump at h
  cases hl : resolveTCPAddr (localAddrString cfg) with
  | none => rw [hl] at h; exact absurd h (by simp)
  | some a =>
    cases hd : resolveTCPAddr cfg.DestAddr with
    | none => rw [hl, hd] at h; exact absurd h (by simp)
    | some b =>
      rw [hl, hd] at h
      simp only [Except.ok.injEq] at h
      subst h
      rfl

theorem newSpeedbump_queueSize_default_witness :
    sbDefaultQueue.queueSize =
      if cfgDefaultQueue.QueueSize = 0 then 1024 else cfgDefaultQueue.QueueSize :=
  newSpeedbump_queueSize_default resolveLoopback 0 cfgDefaultQueue sbDefaultQueue rfl

/-- C3 counterexample: `cfgNoValidation` has non-positive `BufferSize` and
non-positive, non-zero `QueueSize`, yet `NewSpeedbump` returns an instance
(carrying the non-positive sizes through) rather than an error: the
constructor validates nothing besides address resolution. -/
theorem newSpeedbump_no_size_validation_cex :
    cfgNoValidation.BufferSize ≤ 0 ∧ cfgNoValidation.QueueSize < 0 ∧
    NewSpeedbump resolveLoopback 0 cfgNoValidation =
      Except.ok
        { bufferSize := -1
        , queueSize := -4
        , srcAddr := { ip := "127.0.0.1", port := 80 }
        , destAddr := { ip := "127.0.0.1", port := 80 }
        , latencyGen := { start := 0, cfg := none }
        , disabled := false } := by
  refine ⟨by decide, by decide, rfl⟩

/-- C3 amended: `NewSpeedbump` performs no positivity validation of the sizing
parameters. Whenever both addresses resolve it returns an instance for every
`BufferSize` and `QueueSize`, copying them through unchanged except that a
zero `QueueSize` becomes 1024 (speedbump.go lines 55-83). -/
theorem newSpeedbump_accepts_any_sizes (resolveTCPAddr : String → Option TCPAddr)
    (now : Nat) (cfg : SpeedbumpCfg) (a b : TCPAddr)
    (h1 : resolveTCPAddr (localAddrString cfg) = some a)
    (h2 : resolveTCPAddr cfg.DestAddr = some b) :
    NewSpeedbump resolveTCPAddr now cfg =
      Except.ok
        { bufferSize := cfg.BufferSize
        , queueSize := if cfg.QueueSize = 0 then 1024 else cfg.QueueSize
        , srcAddr := a
        , destAddr := b
        , latencyGen := newSimpleLatencyGenerator now cfg.Latency
        , disabled := cfg.Disabled } := by
  unfold NewSpeedbump
  rw [h1, h2]

theorem newSpeedbump_accepts_any_sizes_witness :
    NewSpeedbump resolveLoopback 0 cfgNoValidation =
      Except.ok
        { bufferSize := cfgNoValidation.BufferSize
        , queueSize :=
            if cfgNoValidation.QueueSize = 0 then 1024 else cfgNoValidation.QueueSize
        , srcAddr := { ip := "127.0.0.1", port := 80 }
        , destAddr := { ip := "127.0.0.1", port := 80 }
        , latencyGen := newSimpleLatencyGenerator 0 cfgNoValidation.Latency
        , disabled := cfgNoValidation.Disabled } :=
  newSpeedbump_accepts_any_sizes resolveLoopback 0 cfgNoValidation
    { ip := "127.0.0.1", port := 80 } { ip := "127.0.0.1", port := 80 }
    rfl rfl

/-- C5: `NewSpeedbump` returns an error precisely when resolving the local
listen address or the destination address fails; in that case the `Except`
carries an error and no `Speedbump` value, so the proxy cannot be started
(speedbump.go lines 56-63). -/
theorem newSpeedbump_error_iff_resolution_fails
    (resolveTCPAddr : String → Option TCPAddr) (now : Nat) (cfg : SpeedbumpCfg) :
    (∃ e, NewSpeedbump resolveTCPAddr now cfg = Except.error e) ↔
      (resolveTCPAddr (localAddrString cfg) = none ∨
        resolveTCPAddr cfg.DestAddr = none) := by
  unfold NewSpeedbump
  cases hl : resolveTCPAddr (localAddrString cfg) with
  | none => simp
  | some a =>
    cases hd : resolveTCPAddr cfg.DestAddr with
    | none => simp
    | some b => simp

theorem newSpeedbump_error_iff_resolution_fails_witness :
    (∃ e, NewSpeedbump resolveNothing 0 cfgDefaultQueue = Except.error e) ↔
      (resolveNothing (localAddrString cfgDefaultQueue) = none ∨
        resolveNothing cfgDefaultQueue.DestAddr = none) :=
  newSpeedbump_error_iff_resolution_fails resolveNothing 0 cfgDefaultQueue

/-- C1: the accept loop's append to `activeConnections` and a concurrent
`Enable` iteration over it conflict while no common lock is held — the
registry accesses of speedbump.go race, contrary to the claim that they are
synchronized. -/
theorem accept_enable_race :
    hasDataRace startAcceptLoopAccesses enableAccesses
      startAcceptLoopLocks enableLocks = true := by decide

/-- Unfolding of a successful accept-loop iteration with a successful dial
(speedbump.go lines 98-117). -/
theorem step_acceptOk (s s' : SBState)
    (h : step s (Label.acceptDial true) = some s') :
    s.listenerOpen = true ∧ s.loopRunning = true ∧
      s' = { s with
        dialAttempts := s.dialAttempts + 1
        nextConnId := s.nextConnId + 1
        activeCount := s.activeCount + 1
        activeConnections := s.activeConnections ++
          [{ id := s.nextConnId, initialEnabled := !s.disabled,
             enabled := !s.disabled }] } := by
  simp only [step] at h
  split at h
  next hg => exact ⟨hg.1, hg.2, (Option.some.inj h).symm⟩
  next hg => exact Option.noConfusion h

/-- Unfolding of an accept-loop iteration whose dial fails
(speedbump.go lines 109-112). -/
theorem step_acceptFail (s s' : SBState)
    (h : step s (Label.acceptDial false) = some s') :
    s.listenerOpen = true ∧ s.loopRunning = true ∧
      s' = { s with
        dialAttempts := s.dialAttempts + 1
        closedClientSockets := s.closedClientSockets + 1 } := by
  simp only [step] at h
  split at h
  next hg => exact ⟨hg.1, hg.2, (Option.some.inj h).symm⟩
  next hg => exact Option.noConfusion h

/-- Unfolding of an accept-loop iteration with a non-fatal accept error
(speedbump.go lines 93-94). -/
theorem step_acceptErrOther (s s' : SBState)
    (h : step s Label.acceptErrOther = some s') :
    s.listenerOpen = true ∧ s.loopRunning = true ∧ s' = s := by
  simp only [step] at h
  split at h
  next hg => exact ⟨hg.1, hg.2, (Option.some.inj h).symm⟩
  next hg => exact Option.noConfusion h

/-- Unfolding of the accept loop returning after the listener closed
(speedbump.go lines 89-91). -/
theorem step_acceptErrClosed (s s' : SBState)
    (h : step s Label.acceptErrClosed = some s') :
    s.listenerOpen = false ∧ s.loopRunning = true ∧
      s' = { s with loopRunning := false } := by
  simp only [step] at h
  split at h
  next hg => exact ⟨hg.1, hg.2, (Option.some.inj h).symm⟩
  next hg => exact Option.noConfusion h

/-- Unfolding of a proxy connection's `start()` returning
(speedbump.go line 124). -/
theorem step_connReturn (s s' : SBState) (i : Nat)
    (h : step s (Label.connReturn i) = some s') :
    (∃ c ∈ s.activeConnections, c.id = i) ∧ i ∉ s.returned ∧
      s' = { s with returned := i :: s.returned } := by
  simp only [step] at h
  split at h
  next hg => exact ⟨hg.1, hg.2, (Option.some.inj h).symm⟩
  next hg => exact Option.noConfusion h

/-- Unfolding of a proxy connection's deferred `active.Done()`
(speedbump.go line 122). -/
theorem step_connDone (s s' : SBState) (i : Nat)
    (h : step s (Label.connDone i) = some s') :
    i ∈ s.returned ∧ i ∉ s.doneIds ∧
      s' = { s with doneIds := i :: s.doneIds
                  , activeCount := s.activeCount - 1 } := by
  simp only [step] at h
  split at h
  next hg => exact ⟨hg.1, hg.2, (Option.some.inj h).symm⟩
  next hg => exact Option.noConfusion h

/-- Unfolding of `Stop`'s `listener.Close()` (speedbump.go line 152). -/
theorem step_stopClose (s s' : SBState)
    (h : step s Label.stopClose = some s') :
    s.listenerOpen = true ∧ s' = { s with listenerOpen := false } := by
  simp only [step] at h
  split at h
  next hg => exact ⟨hg, (Option.some.inj h).symm⟩
  next hg => exact Option.noConfusion h

/-- Unfolding of `Stop`'s `ctxCancel()` (speedbump.go line 154). -/
theorem step_stopCancel (s s' : SBState)
    (h : step s Label.stopCancel = some s') :
    s.listenerOpen = false ∧ s.ctxCancelled = false ∧
      s' = { s with ctxCancelled := true } := by
  simp only [step] at h
  split at h
  next hg => exact ⟨hg.1, hg.2, (Option.some.inj h).symm⟩
  next hg => exact Option.noConfusion h

/-- Unfolding of `Stop`'s `active.Wait()` returning (speedbump.go line 156). -/
theorem step_stopWait (s s' : SBState)
    (h : step s Label.stopWait = some s') :
    s.ctxCancelled = true ∧ s.activeCount = 0 ∧ s.stopReturned = false ∧
      s' = { s with stopReturned := true } := by
  simp only [step] at h
  split at h
  next hg => exact ⟨hg.1, hg.2.1, hg.2.2, (Option.some.inj h).symm⟩
  next hg => exact Option.noConfusion h

/-- Unfolding of `Enable` (speedbump.go lines 164-169). -/
theorem step_enable (s s' : SBState) (h : step s Label.enable = some s') :
    s' = { s with
      disabled := false
      activeConnections :=
        s.activeConnections.map fun c => { c with enabled := true } } :=
  (Option.some.inj h).symm

/-- Unfolding of `Disable` (speedbump.go lines 171-176). -/
theorem step_disable (s s' : SBState) (h : step s Label.disable = some s') :
    s' = { s with
      disabled := true
      activeConnections :=
        s.activeConnections.map fun c => { c with enabled := false } } :=
  (Option.some.inj h).symm

/-- Toggling the gate of every connection leaves the ids unchanged. -/
theorem ids_map_set_enabled (l : List Conn) (b : Bool) :
    (l.map fun c => { c with enabled := b }).map Conn.id = l.map Conn.id := by
  induction l with
  | nil => rfl
  | cons c t ih => simp only [List.map_cons, ih]

/-- For duplicate-free lists, a subset relation together with at least equal
length makes the inclusion an equality of members. -/
theorem subset_rev_of_nodup_of_length (a b : List Nat) (ha : a.Nodup)
    (hb : b.Nodup) (hsub : a ⊆ b) (hlen : b.length ≤ a.length) : b ⊆ a := by
  intro x hx
  have hfin : a.toFinset = b.toFinset := by
    apply Finset.eq_of_subset_of_card_le
    · intro y hy
      simp only [List.mem_toFinset] at hy ⊢
      exact hsub hy
    · rw [List.toFinset_card_of_nodup ha, List.toFinset_card_of_nodup hb]
      exact hlen
  have hxb : x ∈ b.toFinset := List.mem_toFinset.mpr hx
  rw [← hfin] at hxb
  exact List.mem_toFinset.mp hxb

/-- Unfolding of `AcceptTCP` delivering a client and `newProxyConnection`
succeeding (speedbump.go lines 87, 98-108): the connection is constructed —
with the negation of the current disabled flag — but not yet registered. -/
theorem stepF_acceptOkPending (s s' : FState)
    (h : stepFine s FLabel.acceptOkPending = some s') :
    s.listenerOpen = true ∧ s.loopRunning = true ∧ s.pending = none ∧
      s' = { s with pending := some (!s.disabled)
                  , dialAttempts := s.dialAttempts + 1 } := by
  simp only [stepFine] at h
  split at h
  next hg => exact ⟨hg.1, hg.2.1, hg.2.2, (Option.some.inj h).symm⟩
  next hg => exact Option.noConfusion h

/-- Unfolding of the registration of a previously dialled connection
(speedbump.go lines 114-117). -/
theorem stepF_registerConn (s s' : FState)
    (h : stepFine s FLabel.registerConn = some s') :
    ∃ e, s.pending = some e ∧
      s' = { s with pending := none
                  , nextConnId := s.nextConnId + 1
                  , activeCount := s.activeCount + 1
                  , activeConnections := s.activeConnections ++
                      [{ id := s.nextConnId, initialEnabled := e, enabled := e }] } := by
  simp only [stepFine] at h
  split at h
  next e heq => exact ⟨e, heq, (Option.some.inj h).symm⟩
  next heq => exact Option.noConfusion h

/-- Unfolding of the failed-dial branch (speedbump.go lines 109-112) in the
fine-grained system. -/
theorem stepF_acceptDialFail (s s' : FState)
    (h : stepFine s FLabel.acceptDialFail = some s') :
    s.listenerOpen = true ∧ s.loopRunning = true ∧ s.pending = none ∧
      s' = { s with dialAttempts := s.dialAttempts + 1
                  , closedClientSockets := s.closedClientSockets + 1 } := by
  simp only [stepFine] at h
  split at h
  next hg => exact ⟨hg.1, hg.2.1, hg.2.2, (Option.some.inj h).symm⟩
  next hg => exact Option.noConfusion h

/-- Unfolding of a non-fatal accept error (speedbump.go lines 93-94) in the
fine-grained system. -/
theorem stepF_acceptErrOther (s s' : FState)
    (h : stepFine s FLabel.acceptErrOther = some s') :
    s.listenerOpen = true ∧ s.loopRunning = true ∧ s.pending = none ∧ s' = s := by
  simp only [stepFine] at h
  split at h
  next hg => exact ⟨hg.1, hg.2.1, hg.2.2, (Option.some.inj h).symm⟩
  next hg => exact Option.noConfusion h

/-- Unfolding of the accept loop returning (speedbump.go lines 89-91) in the
fine-grained system. -/
theorem stepF_acceptErrClosed (s s' : FState)
    (h : stepFine s FLabel.acceptErrClosed = some s') :
    s.listenerOpen = false ∧ s.loopRunning = true ∧ s.pending = none ∧
      s' = { s with loopRunning := false } := by
  simp only [stepFine] at h
  split at h
  next hg => exact ⟨hg.1, hg.2.1, hg.2.2, (Option.some.inj h).symm⟩
  next hg => exact Option.noConfusion h

/-- Unfolding of `start()` returning (speedbump.go line 124) in the
fine-grained system. -/
theorem stepF_connReturn (s s' : FState) (i : Nat)
    (h : stepFine s (FLabel.connReturn i) = some s') :
    (∃ c ∈ s.activeConnections, c.id = i) ∧ i ∉ s.returned ∧
      s' = { s with returned := i :: s.returned } := by
  simp only [stepFine] at h
  split at h
  next hg => exact ⟨hg.1, hg.2, (Option.some.inj h).symm⟩
  next hg => exact Option.noConfusion h

/-- Unfolding of the deferred `active.Done()` (speedbump.go line 122) in the
fine-grained system. -/
theorem stepF_connDone (s s' : FState) (i : Nat)
    (h : stepFine s (FLabel.connDone i) = some s') :
    i ∈ s.returned ∧ i ∉ s.doneIds ∧
      s' = { s with doneIds := i :: s.doneIds
                  , activeCount := s.activeCount - 1 } := by
  simp only [stepFine] at h
  split at h
  next hg => exact ⟨hg.1, hg.2, (Option.some.inj h).symm⟩
  next hg => exact Option.noConfusion h

/-- Unfolding of `listener.Close()` (speedbump.go line 152) in the
fine-grained system. -/
theorem stepF_stopClose (s s' : FState)
    (h : stepFine s FLabel.stopClose = some s') :
    s.listenerOpen = true ∧ s' = { s with listenerOpen := false } := by
  simp only [stepFine] at h
  split at h
  next hg => exact ⟨hg, (Option.some.inj h).symm⟩
  next hg => exact Option.noConfusion h

/-- Unfolding of `ctxCancel()` (speedbump.go line 154) in the fine-grained
system. -/
theorem stepF_stopCancel (s s' : FState)
    (h : stepFine s FLabel.stopCancel = some s') :
    s.listenerOpen = false ∧ s.ctxCancelled = false ∧
      s' = { s with ctxCancelled := true } := by
  simp only [stepFine] at h
  split at h
  next hg => exact ⟨hg.1, hg.2, (Option.some.inj h).symm⟩
  next hg => exact Option.noConfusion h

/-- Unfolding of `active.Wait()` returning (speedbump.go line 156) in the
fine-grained system. -/
theorem stepF_stopWait (s s' : FState)
    (h : stepFine s FLabel.stopWait = some s') :
    s.ctxCancelled = true ∧ s.activeCount = 0 ∧ s.stopReturned = false ∧
      s' = { s with stopReturned := true } := by
  simp only [stepFine] at h
  split at h
  next hg => exact ⟨hg.1, hg.2.1, hg.2.2, (Option.some.inj h).symm⟩
  next hg => exact Option.noConfusion h

/-- Unfolding of `Enable` (speedbump.go lines 164-169) in the fine-grained
system. -/
theorem stepF_enable (s s' : FState) (h : stepFine s FLabel.enable = some s') :
    s' = { s with
      disabled := false
      activeConnections :=
        s.activeConnections.map fun c => { c with enabled := true } } :=
  (Option.some.inj h).symm

/-- Unfolding of `Disable` (speedbump.go lines 171-176) in the fine-grained
system. -/
theorem stepF_disable (s s' : FState) (h : stepFine s FLabel.disable = some s') :
    s' = { s with
      disabled := true
      activeConnections :=
        s.activeConnections.map fun c => { c with enabled := false } } :=
  (Option.some.inj h).symm

/-- When the wait-group counter is zero, every registered connection has had
its `active.Done()` run (fine-grained system). -/
theorem fdone_all_of_count_zero (s : FState) (hInv : FInv s)
    (h0 : s.activeCount = 0) : idsOfF s ⊆ s.doneIds := by
  have hsub : s.doneIds ⊆ idsOfF s := fun x hx => hInv.retSub (hInv.doneSub hx)
  have hlen : (idsOfF s).length ≤ s.doneIds.length := by
    have hc := hInv.countEq
    have hlen2 : (idsOfF s).length = s.activeConnections.length := by
      simp [idsOfF]
    omega
  exact subset_rev_of_nodup_of_length s.doneIds (idsOfF s) hInv.doneNodup
    hInv.idsNodup hsub hlen

/-- A pending `active.Done()` implies a positive wait-group counter
(fine-grained system). -/
theorem fconnDone_guard_pos (s : FState) (i : Nat) (hInv : FInv s)
    (hret : i ∈ s.returned) (hdone : i ∉ s.doneIds) : 0 < s.activeCount := by
  rcases Nat.eq_zero_or_pos s.activeCount with h0 | h
  · exact absurd (fdone_all_of_count_zero s hInv h0 (hInv.retSub hret)) hdone
  · exact h

/-- Every fine-grained event preserves the fine-grained invariant. -/
theorem finv_step (s s' : FState) (l : FLabel) (hInv : FInv s)
    (hstep : stepFine s l = some s') : FInv s' := by
  cases l with
  | acceptOkPending =>
    obtain ⟨-, -, -, rfl⟩ := stepF_acceptOkPending s s' hstep
    exact
      { idsNodup := hInv.idsNodup
      , idsLt := hInv.idsLt
      , retNodup := hInv.retNodup
      , doneNodup := hInv.doneNodup
      , retSub := hInv.retSub
      , doneSub := hInv.doneSub
      , countEq := hInv.countEq
      , cancelClosed := hInv.cancelClosed }
  | registerConn =>
    obtain ⟨e, -, rfl⟩ := stepF_registerConn s s' hstep
    refine
      { idsNodup := ?_
      , idsLt := ?_
      , retNodup := hInv.retNodup
      , doneNodup := hInv.doneNodup
      , retSub := ?_
      , doneSub := hInv.doneSub
      , countEq := ?_
      , cancelClosed := hInv.cancelClosed }
    · show ((s.activeConnections ++ _).map Conn.id).Nodup
      rw [List.map_append]
      rw [List.nodup_append]
      refine ⟨hInv.idsNodup, List.nodup_singleton _, ?_⟩
      intro x hx hx'
      simp only [List.map_cons, List.map_nil, List.mem_singleton] at hx'
      subst hx'
      obtain ⟨c, hc, hcid⟩ := List.mem_map.mp hx
      exact absurd (hcid ▸ hInv.idsLt c hc) (lt_irrefl _)
    · intro c hc
      rcases List.mem_append.mp hc with hc | hc
      · exact Nat.lt_succ_of_lt (hInv.idsLt c hc)
      · simp only [List.mem_singleton] at hc
        subst hc
        exact Nat.lt_succ_self _
    · intro x hx
      show x ∈ (s.activeConnections ++ _).map Conn.id
      rw [List.map_append]
      exact List.mem_append_left _ (hInv.retSub hx)
    · show s.activeCount + 1 + s.doneIds.length = (s.activeConnections ++ _).length
      rw [List.length_append]
      have hc := hInv.countEq
      simp only [List.length_singleton]
      omega
  | acceptDialFail =>
    obtain ⟨-, -, -, rfl⟩ := stepF_acceptDialFail s s' hstep
    exact
      { idsNodup := hInv.idsNodup
      , idsLt := hInv.idsLt
      , retNodup := hInv.retNodup
      , doneNodup := hInv.doneNodup
      , retSub := hInv.retSub
      , doneSub := hInv.doneSub
      , countEq := hInv.countEq
      , cancelClosed := hInv.cancelClosed }
  | acceptErrOther =>
    obtain ⟨-, -, -, rfl⟩ := stepF_acceptErrOther s s' hstep
    exact hInv
  | acceptErrClosed =>
    obtain ⟨-, -, -, rfl⟩ := stepF_acceptErrClosed s s' hstep
    exact
      { idsNodup := hInv.idsNodup
      , idsLt := hInv.idsLt
      , retNodup := hInv.retNodup
      , doneNodup := hInv.doneNodup
      , retSub := hInv.retSub
      , doneSub := hInv.doneSub
      , countEq := hInv.countEq
      , cancelClosed := hInv.cancelClosed }
  | connReturn i =>
    obtain ⟨⟨c, hc, hcid⟩, hnotret, rfl⟩ := stepF_connReturn s s' i hstep
    refine
      { idsNodup := hInv.idsNodup
      , idsLt := hInv.idsLt
      , retNodup := List.nodup_cons.mpr ⟨hnotret, hInv.retNodup⟩
      , doneNodup := hInv.doneNodup
      , retSub := ?_
      , doneSub := fun x hx => List.mem_cons_of_mem _ (hInv.doneSub hx)
      , countEq := hInv.countEq
      , cancelClosed := hInv.cancelClosed }
    intro x hx
    rcases List.mem_cons.mp hx with hx | hx
    · subst hx
      exact hcid ▸ List.mem_map_of_mem Conn.id hc
    · exact hInv.retSub hx
  | connDone i =>
    obtain ⟨hret, hdone, rfl⟩ := stepF_connDone s s' i hstep
    have hpos := fconnDone_guard_pos s i hInv hret hdone
    refine
      { idsNodup := hInv.idsNodup
      , idsLt := hInv.idsLt
      , retNodup := hInv.retNodup
      , doneNodup := List.nodup_cons.mpr ⟨hdone, hInv.doneNodup⟩
      , retSub := hInv.retSub
      , doneSub := ?_
      , countEq := ?_
      , cancelClosed := hInv.cancelClosed }
    · intro x hx
      rcases List.mem_cons.mp hx with hx | hx
      · subst hx; exact hret
      · exact hInv.doneSub hx
    · show s.activeCount - 1 + (i :: s.doneIds).length = s.activeConnections.length
      have hc := hInv.countEq
      simp only [List.length_cons]
      omega
  | stopClose =>
    obtain ⟨-, rfl⟩ := stepF_stopClose s s' hstep
    exact
      { idsNodup := hInv.idsNodup
      , idsLt := hInv.idsLt
      , retNodup := hInv.retNodup
      , doneNodup := hInv.doneNodup
      , retSub := hInv.retSub
      , doneSub := hInv.doneSub
      , countEq := hInv.countEq
      , cancelClosed := fun _ => rfl }
  | stopCancel =>
    obtain ⟨hl, -, rfl⟩ := stepF_stopCancel s s' hstep
    exact
      { idsNodup := hInv.idsNodup
      , idsLt := hInv.idsLt
      , retNodup := hInv.retNodup
      , doneNodup := hInv.doneNodup
      , retSub := hInv.retSub
      , doneSub := hInv.doneSub
      , countEq := hInv.countEq
      , cancelClosed := fun _ => hl }
  | stopWait =>
    obtain ⟨hc, -, -, rfl⟩ := stepF_stopWait s s' hstep
    exact
      { idsNodup := hInv.idsNodup
      , idsLt := hInv.idsLt
      , retNodup := hInv.retNodup
      , doneNodup := hInv.doneNodup
      , retSub := hInv.retSub
      , doneSub := hInv.doneSub
      , countEq := hInv.countEq
      , cancelClosed := fun _ => hInv.cancelClosed hc }
  | enable =>
    have hs' := stepF_enable s s' hstep
    subst hs'
    refine
      { idsNodup := ?_
      , idsLt := ?_
      , retNodup := hInv.retNodup
      , doneNodup := hInv.doneNodup
      , retSub := ?_
      , doneSub := hInv.doneSub
      , countEq := ?_
      , cancelClosed := hInv.cancelClosed }
    · show ((s.activeConnections.map _).map Conn.id).Nodup
      rw [ids_map_set_enabled]
      exact hInv.idsNodup
    · intro c hc
      obtain ⟨c₀, hc₀, rfl⟩ := List.mem_map.mp hc
      exact hInv.idsLt c₀ hc₀
    · intro x hx
      show x ∈ (s.activeConnections.map _).map Conn.id
      rw [ids_map_set_enabled]
      exact hInv.retSub hx
    · show s.activeCount + s.doneIds.length = (s.activeConnections.map _).length
      rw [List.length_map]
      exact hInv.countEq
  | disable =>
    have hs' := stepF_disable s s' hstep
    subst hs'
    refine
      { idsNodup := ?_
      , idsLt := ?_
      , retNodup := hInv.retNodup
      , doneNodup := hInv.doneNodup
      , retSub := ?_
      , doneSub := hInv.doneSub
      , countEq := ?_
      , cancelClosed := hInv.cancelClosed }
    · show ((s.activeConnections.map _).map Conn.id).Nodup
      rw [ids_map_set_enabled]
      exact hInv.idsNodup
    · intro c hc
      obtain ⟨c₀, hc₀, rfl⟩ := List.mem_map.mp hc
      exact hInv.idsLt c₀ hc₀
    · intro x hx
      show x ∈ (s.activeConnections.map _).map Conn.id
      rw [ids_map_set_enabled]
      exact hInv.retSub hx
    · show s.activeCount + s.doneIds.length = (s.activeConnections.map _).length
      rw [List.length_map]
      exact hInv.countEq

/-- The fine-grained state right after `Start` satisfies the invariant. -/
theorem finv_startedStateF (d : Bool) : FInv (startedStateF d) := by
  refine
    { idsNodup := ?_
    , idsLt := ?_
    , retNodup := ?_
    , doneNodup := ?_
    , retSub := ?_
    , doneSub := ?_
    , countEq := ?_
    , cancelClosed := ?_ } <;>
  simp [startedStateF, idsOfF]

/-- The fine-grained invariant holds at the end of any valid schedule. -/
theorem finv_run (s s' : FState) (tr : List FLabel) (hInv : FInv s)
    (h : runFine s tr = some s') : FInv s' := by
  induction tr generalizing s with
  | nil =>
    simp only [runFine] at h
    exact (Option.some.inj h) ▸ hInv
  | cons l t ih =>
    simp only [runFine] at h
    cases hs : stepFine s l with
    | none => rw [hs] at h; exact Option.noConfusion h
    | some s₁ =>
      rw [hs] at h
      exact ih s₁ (finv_step s s₁ l hInv hs) h

/-- C4 counterexample: in the schedule `cexTrace` — `AcceptTCP` delivers a
client and the dial succeeds, then `Stop` runs to completion (listener closed,
context cancelled, `active.Wait()` returns on the still-zero counter), and
only afterwards does the accept loop register the connection — `Stop` has
returned while live connection 0 is in the registry and its `start()` has not
returned (it had not even been launched when `Stop` returned). `Stop`
therefore does not return only after every active proxy connection's `start()`
has returned. -/
theorem stop_misses_inflight_connection_cex :
    runFine (startedStateF false) cexTrace = some cexFinal ∧
    cexFinal.stopReturned = true ∧
    { id := 0, initialEnabled := true, enabled := true } ∈ cexFinal.activeConnections ∧
    (0 : Nat) ∉ cexFinal.returned := by decide

/-- C4 amended: `Stop` closes the listener, then sets the single shared
cancellation signal (one context flag seen by every connection), and
`active.Wait()` lets it return only once every connection registered in the
wait group has had its `start()` return: at the moment the wait returns, the
listener is closed, the context is cancelled, and every registered
connection's `start()` has returned. A connection dialled before the close
but registered after the wait is not covered (see the counterexample). -/
theorem stop_waits_for_registered_connections (d : Bool) (tr : List FLabel)
    (s₁ s₂ : FState) (h : runFine (startedStateF d) tr = some s₁)
    (hw : stepFine s₁ FLabel.stopWait = some s₂) :
    (∀ c ∈ s₁.activeConnections, c.id ∈ s₁.returned) ∧
      s₁.ctxCancelled = true ∧ s₁.listenerOpen = false := by
  have hInv := finv_run (startedStateF d) s₁ tr (finv_startedStateF d) h
  obtain ⟨hc, h0, -, -⟩ := stepF_stopWait s₁ s₂ hw
  refine ⟨?_, hc, hInv.cancelClosed hc⟩
  intro c hcm
  exact hInv.doneSub
    (fdone_all_of_count_zero s₁ hInv h0 (List.mem_map_of_mem Conn.id hcm))

theorem stop_waits_for_registered_connections_witness :
    (∀ c ∈ regBeforeWait.activeConnections, c.id ∈ regBeforeWait.returned) ∧
      regBeforeWait.ctxCancelled = true ∧ regBeforeWait.listenerOpen = false :=
  stop_waits_for_registered_connections false regTrace regBeforeWait regAfterWait
    (by decide) (by decide)


/-- C6: when `newProxyConnection` fails for an accepted client, that client's
socket is closed and nothing else changes: the registry, the wait-group
counter, the id counter and the disabled flag are untouched, no error is
surfaced (the iteration still produces a state, the failure being only
logged), and the loop keeps running with the listener open, so other and
future connections are unaffected (speedbump.go lines 109-112). -/
theorem dial_failure_isolated (s s' : SBState)
    (h : step s (Label.acceptDial false) = some s') :
    s'.activeConnections = s.activeConnections ∧
    s'.activeCount = s.activeCount ∧
    s'.nextConnId = s.nextConnId ∧
    s'.disabled = s.disabled ∧
    s'.closedClientSockets = s.closedClientSockets + 1 ∧
    s'.listenerOpen = true ∧
    s'.loopRunning = true := by
  obtain ⟨hl, hr, rfl⟩ := step_acceptFail s s' h
  exact ⟨rfl, rfl, rfl, rfl, rfl, hl, hr⟩

theorem dial_failure_isolated_witness :
    dialFailDemo.activeConnections = (startedState false).activeConnections ∧
    dialFailDemo.activeCount = (startedState false).activeCount ∧
    dialFailDemo.nextConnId = (startedState false).nextConnId ∧
    dialFailDemo.disabled = (startedState false).disabled ∧
    dialFailDemo.closedClientSockets = (startedState false).closedClientSockets + 1 ∧
    dialFailDemo.listenerOpen = true ∧
    dialFailDemo.loopRunning = true :=
  dial_failure_isolated (startedState false) dialFailDemo (by decide)

/-- C7: `Start` returns an error exactly when `net.ListenTCP` fails; on
success it returns at once with the started state — accept loop spawned, no
connection accepted yet, nothing blocked on (speedbump.go lines 129-144). -/
theorem start_error_iff_listen_fails (sb : Speedbump) (listenOk : Bool) :
    ((∃ e, sb.Start listenOk = Except.error e) ↔ listenOk = false) ∧
    (listenOk = true → sb.Start listenOk = Except.ok (startedState sb.disabled)) ∧
    (startedState sb.disabled).activeConnections = [] ∧
    (startedState sb.disabled).activeCount = 0 ∧
    (startedState sb.disabled).listenerOpen = true ∧
    (startedState sb.disabled).loopRunning = true := by
  cases listenOk <;> simp [Speedbump.Start, startedState]

theorem start_error_iff_listen_fails_witness :
    ((∃ e, sbDefaultQueue.Start true = Except.error e) ↔ true = false) ∧
    (true = true →
      sbDefaultQueue.Start true = Except.ok (startedState sbDefaultQueue.disabled)) ∧
    (startedState sbDefaultQueue.disabled).activeConnections = [] ∧
    (startedState sbDefaultQueue.disabled).activeCount = 0 ∧
    (startedState sbDefaultQueue.disabled).listenerOpen = true ∧
    (startedState sbDefaultQueue.disabled).loopRunning = true :=
  start_error_iff_listen_fails sbDefaultQueue true

/-- Evaluated form of a failed-dial accept iteration. -/
theorem step_acceptFail_eval (s : SBState) (hl : s.listenerOpen = true)
    (hr : s.loopRunning = true) :
    step s (Label.acceptDial false) = some
      { s with dialAttempts := s.dialAttempts + 1
             , closedClientSockets := s.closedClientSockets + 1 } := by
  simp [step, hl, hr]

/-- A string of failed dials leaves the loop running and just counts one dial
attempt and one closed client socket per failure. -/
theorem run_dial_failures (n : Nat) :
    ∀ (s : SBState), s.listenerOpen = true → s.loopRunning = true →
      run s (List.replicate n (Label.acceptDial false)) =
        some { s with dialAttempts := s.dialAttempts + n
                    , closedClientSockets := s.closedClientSockets + n } := by
  induction n with
  | zero =>
    intro s hl hr
    simp [run]
  | succ k ih =>
    intro s hl hr
    rw [List.replicate_succ]
    simp only [run, step_acceptFail_eval s hl hr]
    rw [ih { s with dialAttempts := s.dialAttempts + 1
                  , closedClientSockets := s.closedClientSockets + 1 } hl hr]
    have h1 : s.dialAttempts + 1 + k = s.dialAttempts + (k + 1) := by omega
    have h2 : s.closedClientSockets + 1 + k = s.closedClientSockets + (k + 1) := by
      omega
    simp only [Option.some.injEq]
    rw [h1, h2]

/-- C8: no operation retries a failure. Any number of consecutive dial
failures — in particular more than `_maxAttempts` of them — is handled with
exactly one dial attempt and one closed client socket each, the registry
stays empty, and the loop keeps running with no bounded-attempt cutoff;
likewise `Start` runs its listen-and-spawn body on every call, with no
one-time-initialization guard (the `startOnce` of speedbump.go line 162 is
never used, just as `_maxAttempts` of line 160 influences nothing). -/
theorem no_retry_on_failures (d : Bool) (n : Nat) :
    (run (startedState d) (List.replicate n (Label.acceptDial false)) =
      some { startedState d with dialAttempts := n, closedClientSockets := n }) ∧
    (run (startedState d)
      (List.replicate (_maxAttempts + 1) (Label.acceptDial false))).isSome = true ∧
    (∀ sb : Speedbump, sb.Start true = Except.ok (startedState sb.disabled)) := by
  refine ⟨?_, ?_, fun sb => rfl⟩
  · have h := run_dial_failures n (startedState d) rfl rfl
    simpa [startedState] using h
  · rw [run_dial_failures (_maxAttempts + 1) (startedState d) rfl rfl]
    rfl

/-- C9: `Enable` and `Disable` write the instance-level disabled flag, and a
connection accepted afterwards is constructed with the negation of the
current flag as its initial enabled state (speedbump.go lines 107, 165,
172). -/
theorem enable_disable_govern_future_connections (s s₁ s₂ s₃ : SBState)
    (h₁ : step s Label.enable = some s₁)
    (h₂ : step s Label.disable = some s₂)
    (h₃ : step s (Label.acceptDial true) = some s₃) :
    s₁.disabled = false ∧ s₂.disabled = true ∧
    s₃.activeConnections = s.activeConnections ++
      [{ id := s.nextConnId, initialEnabled := !s.disabled,
         enabled := !s.disabled }] := by
  obtain ⟨-, -, rfl⟩ := step_acceptOk s s₃ h₃
  have e₁ := step_enable s s₁ h₁
  have e₂ := step_disable s s₂ h₂
  subst e₁
  subst e₂
  exact ⟨rfl, rfl, rfl⟩

theorem enable_disable_govern_future_connections_witness :
    enableDemo.disabled = false ∧ disableDemo.disabled = true ∧
    acceptDemo.activeConnections = (startedState true).activeConnections ++
      [{ id := (startedState true).nextConnId
       , initialEnabled := !(startedState true).disabled
       , enabled := !(startedState true).disabled }] :=
  enable_disable_govern_future_connections (startedState true)
    enableDemo disableDemo acceptDemo (by decide) (by decide) (by decide)

/-- C10: the registry is append-only. Every event either leaves the list of
registered ids unchanged or appends to it; a connection whose `start()`
returned (and whose `active.Done()` ran) is never removed; and the toggles
iterate over the whole registry, setting the gate of every registered
connection — the already-returned ones included (speedbump.go lines 116,
164-176). -/
theorem activeConnections_append_only (s : SBState) :
    (∀ l s', step s l = some s' → ∃ t, idsOf s' = idsOf s ++ t) ∧
    (∀ i s', step s (Label.connReturn i) = some s' →
      s'.activeConnections = s.activeConnections) ∧
    (∀ i s', step s (Label.connDone i) = some s' →
      s'.activeConnections = s.activeConnections) ∧
    (∀ s', step s Label.enable = some s' →
      s'.activeConnections.length = s.activeConnections.length ∧
      ∀ c ∈ s'.activeConnections, c.enabled = true) ∧
    (∀ s', step s Label.disable = some s' →
      s'.activeConnections.length = s.activeConnections.length ∧
      ∀ c ∈ s'.activeConnections, c.enabled = false) := by
  refine ⟨?_, ?_, ?_, ?_, ?_⟩
  · intro l s' h
    cases l with
    | acceptDial ok =>
      cases ok with
      | true =>
        obtain ⟨-, -, rfl⟩ := step_acceptOk s s' h
        exact ⟨[s.nextConnId], by simp [idsOf]⟩
      | false =>
        obtain ⟨-, -, rfl⟩ := step_acceptFail s s' h
        exact ⟨[], by simp [idsOf]⟩
    | acceptErrOther =>
      obtain ⟨-, -, rfl⟩ := step_acceptErrOther s s' h
      exact ⟨[], by simp [idsOf]⟩
    | acceptErrClosed =>
      obtain ⟨-, -, rfl⟩ := step_acceptErrClosed s s' h
      exact ⟨[], by simp [idsOf]⟩
    | connReturn i =>
      obtain ⟨-, -, rfl⟩ := step_connReturn s s' i h
      exact ⟨[], by simp [idsOf]⟩
    | connDone i =>
      obtain ⟨-, -, rfl⟩ := step_connDone s s' i h
      exact ⟨[], by simp [idsOf]⟩
    | stopClose =>
      obtain ⟨-, rfl⟩ := step_stopClose s s' h
      exact ⟨[], by simp [idsOf]⟩
    | stopCancel =>
      obtain ⟨-, -, rfl⟩ := step_stopCancel s s' h
      exact ⟨[], by simp [idsOf]⟩
    | stopWait =>
      obtain ⟨-, -, -, rfl⟩ := step_stopWait s s' h
      exact ⟨[], by simp [idsOf]⟩
    | enable =>
      have hs' := step_enable s s' h
      subst hs'
      exact ⟨[], by simp [idsOf, ids_map_set_enabled]⟩
    | disable =>
      have hs' := step_disable s s' h
      subst hs'
      exact ⟨[], by simp [idsOf, ids_map_set_enabled]⟩
  · intro i s' h
    obtain ⟨-, -, rfl⟩ := step_connReturn s s' i h
    rfl
  · intro i s' h
    obtain ⟨-, -, rfl⟩ := step_connDone s s' i h
    rfl
  · intro s' h
    have hs' := step_enable s s' h
    subst hs'
    refine ⟨by simp, ?_⟩
    intro c hc
    obtain ⟨c₀, -, rfl⟩ := List.mem_map.mp hc
    rfl
  · intro s' h
    have hs' := step_disable s s' h
    subst hs'
    refine ⟨by simp, ?_⟩
    intro c hc
    obtain ⟨c₀, -, rfl⟩ := List.mem_map.mp hc
    rfl

theorem activeConnections_append_only_witness :
    (∀ l s', step demoFinal l = some s' → ∃ t, idsOf s' = idsOf demoFinal ++ t) ∧
    (∀ i s', step demoFinal (Label.connReturn i) = some s' →
      s'.activeConnections = demoFinal.activeConnections) ∧
    (∀ i s', step demoFinal (Label.connDone i) = some s' →
      s'.activeConnections = demoFinal.activeConnections) ∧
    (∀ s', step demoFinal Label.enable = some s' →
      s'.activeConnections.length = demoFinal.activeConnections.length ∧
      ∀ c ∈ s'.activeConnections, c.enabled = true) ∧
    (∀ s', step demoFinal Label.disable = some s' →
      s'.activeConnections.length = demoFinal.activeConnections.length ∧
      ∀ c ∈ s'.activeConnections, c.enabled = false) :=
  activeConnections_append_only demoFinal
